import Mathlib

/-!
Shallow embedding of the core data structures of the geosia repository
(crate gs_schemas): coordinate algebra, block identifier encoding, the
object registry, and the tiered palette chunk storage, together with
theorems settling the specification claims about them.

Machine integers are modelled as Nat/Int with explicit reductions modulo
2^w exactly where the original u32/u64/i32 arithmetic can overflow or
wrap.  All i32 values handled by the coordinate code stay far inside the
i32 range, so plain Int is used for vector components.
-/

/-! ## Coordinate algebra (src/lib/gs_schemas/src/coordinates.rs) -/

/-- 3-component signed integer vector, the bevy_math IVec3 used by the
coordinate newtypes.  Components are Rust i32 values; every operation
modelled here keeps them far from the i32 bounds. -/
structure IVec3 where
  x : Int
  y : Int
  z : Int
deriving DecidableEq

/-- Componentwise minimum, IVec3::min. -/
def IVec3.cmin (a b : IVec3) : IVec3 :=
  ⟨min a.x b.x, min a.y b.y, min a.z b.z⟩

/-- Componentwise maximum, IVec3::max. -/
def IVec3.cmax (a b : IVec3) : IVec3 :=
  ⟨max a.x b.x, max a.y b.y, max a.z b.z⟩

/-- Length of a side of a chunk in blocks (CHUNK_DIM). -/
def CHUNK_DIM : Int := 32

/-- Number of blocks on the face of a chunk (CHUNK_DIM2). -/
def CHUNK_DIM2 : Int := CHUNK_DIM * CHUNK_DIM

/-- Number of blocks in the volume of the chunk, as usize (CHUNK_DIM3Z). -/
def CHUNK_DIM3Z : Nat := 32 * 32 * 32

/-- A block position inside of a chunk: newtype over IVec3
(struct InChunkPos).  The Rust type itself places no bound on the wrapped
vector; validity is enforced by the fallible constructors. -/
structure InChunkPos where
  v : IVec3
deriving DecidableEq

/-- The in-range predicate maintained by InChunkPos constructors:
every component in [0, CHUNK_DIM). -/
def InChunkPos.Valid (p : InChunkPos) : Prop :=
  0 ≤ p.v.x ∧ p.v.x < CHUNK_DIM ∧ 0 ≤ p.v.y ∧ p.v.y < CHUNK_DIM ∧
    0 ≤ p.v.z ∧ p.v.z < CHUNK_DIM

instance (p : InChunkPos) : Decidable p.Valid := by
  unfold InChunkPos.Valid; infer_instance

/-- TryFrom for IVec3 into InChunkPos: fails, returning the offending
vector (InChunkVecError payload), iff any component is negative or at
least CHUNK_DIM; the Rust test is
(value.cmplt(IVec3::ZERO) | value.cmpge(CHUNK_DIM3V)).any(). -/
def InChunkPos.try_from (value : IVec3) : Except IVec3 InChunkPos :=
  if value.x < 0 ∨ value.y < 0 ∨ value.z < 0 ∨
      CHUNK_DIM ≤ value.x ∨ CHUNK_DIM ≤ value.y ∨ CHUNK_DIM ≤ value.z then
    .error value
  else
    .ok ⟨value⟩

/-- InChunkPos::try_from_index: decode an XZY-strided index.  The index is
cast to i32 and decoded with truncating division/remainder; since the
operand is nonnegative (idx < 32768) this coincides with the Euclidean
division used here. -/
def InChunkPos.try_from_index (idx : Nat) : Except Nat InChunkPos :=
  if CHUNK_DIM3Z ≤ idx then .error idx
  else
    let i : Int := (idx : Int)
    .ok ⟨⟨i % CHUNK_DIM, (i / CHUNK_DIM2) % CHUNK_DIM, (i / CHUNK_DIM) % CHUNK_DIM⟩⟩

/-- InChunkPos::as_index: x + CHUNK_DIM*z + CHUNK_DIM2*y cast `as usize`
(64-bit); the cast sign-extends, i.e. reduces the value modulo 2^64.  For
valid positions the sum is in [0, 32768) and the reduction is the
identity. -/
def InChunkPos.as_index (p : InChunkPos) : Nat :=
  ((p.v.x + CHUNK_DIM * p.v.z + CHUNK_DIM2 * p.v.y) % (2 ^ 64 : Int)).toNat

/-- A range of block positions inside a chunk, min/max inclusive
(struct InChunkRange). -/
structure InChunkRange where
  min : InChunkPos
  max : InChunkPos
deriving DecidableEq

/-- InChunkRange::from_corners: componentwise normalization of two
corners into (min, max). -/
def InChunkRange.from_corners (a b : InChunkPos) : InChunkRange :=
  ⟨⟨IVec3.cmin a.v b.v⟩, ⟨IVec3.cmax a.v b.v⟩⟩

/-- InChunkRange::is_empty: self.min.cmpeq(*self.max).any(), i.e. true
iff min and max agree on at least one axis. -/
def InChunkRange.is_empty (r : InChunkRange) : Bool :=
  (r.min.v.x == r.max.v.x) || (r.min.v.y == r.max.v.y) || (r.min.v.z == r.max.v.z)

/-- The inclusive integer range a..=b as a list (empty when b < a),
modelling the RangeInclusive iteration of Rust. -/
def intRangeIncl (a b : Int) : List Int :=
  (List.range (b + 1 - a).toNat).map fun k => a + (k : Int)

/-- InChunkRange::iter_xzy as written in the source:
itertools::iproduct!(min.y..=max.y, min.z..=max.z, min.x..=max.x)
.map(|(y, z, x)| InChunkPos(IVec3::new(y, z, x))).
Note that IVec3::new takes its arguments in (x, y, z) field order, so the
closure stores the y loop variable in the x field, z in the y field and x
in the z field, exactly as the source does. -/
def InChunkRange.iter_xzy (r : InChunkRange) : List InChunkPos :=
  (intRangeIncl r.min.v.y r.max.v.y).flatMap fun y =>
    (intRangeIncl r.min.v.z r.max.v.z).flatMap fun z =>
      (intRangeIncl r.min.v.x r.max.v.x).map fun x =>
        InChunkPos.mk (IVec3.mk y z x)

/-- True iff an Except value is the ok variant. -/
def isOkB {ε α : Type} : Except ε α → Bool
  | .ok _ => true
  | .error _ => false

/-! ## Block identifier encoding (src/lib/gs_schemas/src/voxeltypes.rs) -/

/-- BlockId: a 64-bit packed block identifier, modelled as a Nat reduced
modulo 2^64. -/
structure BlockId where
  bits : Nat
deriving DecidableEq

/-- BlockId::from_bits as written in the source:
(registry_id as u64) << 3 | (shape_id & 0b111111) as u64
| ((solid_sides & 0b111111) as u64) << 6 | ((render_mode & 0b11) as u64) << 12.
registry_id is a u32 (reduced mod 2^32); shape_id, solid_sides and
render_mode are u8 values whose masks make any higher bits irrelevant.
The packed value is below 2^35, so the mod 2^64 of u64 arithmetic is the
identity and is omitted. -/
def BlockId.from_bits (registry_id shape_id solid_sides render_mode : Nat) : BlockId :=
  ⟨((registry_id % 2 ^ 32) <<< 3) ||| (shape_id &&& 63) |||
    ((solid_sides &&& 63) <<< 6) ||| ((render_mode &&& 3) <<< 12)⟩

/-- BlockId::registry_id_bits: ((self.0 >> 32) & 0xFFFF_FFFF) as u32. -/
def BlockId.registry_id_bits (b : BlockId) : Nat :=
  (b.bits >>> 32) &&& 0xFFFFFFFF

/-- BlockId::shape_id_bits: (self.0 & 0b111111) as u8. -/
def BlockId.shape_id_bits (b : BlockId) : Nat :=
  b.bits &&& 63

/-- BlockId::solid_sides_bits: ((self.0 >> 6) & 0b111111) as u8. -/
def BlockId.solid_sides_bits (b : BlockId) : Nat :=
  (b.bits >>> 6) &&& 63

/-- BlockId::render_mode_bits: ((self.0 >> 12) & 0b11) as u8. -/
def BlockId.render_mode_bits (b : BlockId) : Nat :=
  (b.bits >>> 12) &&& 3

/-! ## Registry (src/lib/gs_schemas/src/registry.rs)

The hashbrown HashMap name index is modelled as an association list: the
source only ever inserts a key after checking it is absent, so insertion
is modelled as consing the new binding.  RegistryId (NonZeroU32) values
are modelled as Nat; the non-zero and below 2^32 bounds appear as
hypotheses where the source type guarantees them. -/

/-- RegistryName: (namespace, key) pair of strings. -/
structure RegistryName where
  ns : String
  key : String
deriving DecidableEq

/-- The RegistryObject trait: every object exposes its registry name. -/
class RegistryObject (Object : Type) where
  registry_name : Object → RegistryName

/-- u32::MAX. -/
def U32_MAX : Nat := 4294967295

/-- 2^32, the modulus of u32 arithmetic. -/
def U32_MOD : Nat := 4294967296

/-- Registry: allocation counter (u32), dense id-indexed object array,
and the name-to-id map. -/
structure Registry (Object : Type) where
  next_free_id : Nat
  id_to_obj : List (Option Object)
  name_to_id : List (RegistryName × Nat)
deriving DecidableEq

/-- The error outcomes of the registry mutators.  slotOccupiedAbort is
the push_object branch that panics in the source ("Freshly allocated ID
already used"); modelling it as a distinguished error keeps the step
functions total while recording that the branch was taken. -/
inductive RegError where
  | allocExhausted
  | zeroId
  | duplicateName
  | duplicateId
  | slotOccupiedAbort
deriving DecidableEq

/-- Registry::default: counter 1, one empty (reserved id 0) slot, empty
name map. -/
def Registry.init (Object : Type) : Registry Object :=
  ⟨1, [none], []⟩

/-- HashMap::contains_key on the association-list model. -/
def containsName (m : List (RegistryName × Nat)) (n : RegistryName) : Bool :=
  m.any fun p => p.1 == n

/-- Reading slot i of the object array; out-of-range reads give none,
matching Vec indexing that the source always guards by length. -/
def slotGet {O : Type} (r : Registry O) (i : Nat) : Option O :=
  r.id_to_obj.getD i none

/-- Vec::resize_with(newLen, || None): grow the array to newLen with
empty slots (the source only calls it when it grows). -/
def listResize {O : Type} (l : List (Option O)) (newLen : Nat) : List (Option O) :=
  l ++ List.replicate (newLen - l.length) none

/-- Registry::allocate_id: return the counter and advance it by one;
checked_add fails at u32::MAX (allocation exhausted), and the NonZeroU32
conversion fails on 0 — but only after the counter was already advanced,
exactly as in the source where the add happens before the conversion. -/
def Registry.allocate_id {O : Type} (r : Registry O) : Except RegError Nat × Registry O :=
  if r.next_free_id = U32_MAX then (.error .allocExhausted, r)
  else
    let id := r.next_free_id
    let r1 : Registry O := { r with next_free_id := id + 1 }
    if id = 0 then (.error .zeroId, r1) else (.ok id, r1)

/-- Registry::push_object: allocate a fresh id, grow the array in blocks
of 32 if needed (or abort if the fresh slot is somehow occupied), reject
a duplicate name, then store the object and index its name. -/
def Registry.push_object {O : Type} [RegistryObject O] (r : Registry O) (obj : O) :
    Except RegError Nat × Registry O :=
  match r.allocate_id with
  | (.error e, r1) => (.error e, r1)
  | (.ok id, r1) =>
    let raw_id := id
    if r1.id_to_obj.length ≤ raw_id then
      let r2 : Registry O := { r1 with id_to_obj := listResize r1.id_to_obj (raw_id + 32) }
      let name := RegistryObject.registry_name obj
      if containsName r2.name_to_id name then (.error .duplicateName, r2)
      else (.ok id, { r2 with id_to_obj := r2.id_to_obj.set raw_id (some obj),
                              name_to_id := (name, id) :: r2.name_to_id })
    else if (slotGet r1 raw_id).isSome then
      (.error .slotOccupiedAbort, r1)
    else
      let name := RegistryObject.registry_name obj
      if containsName r1.name_to_id name then (.error .duplicateName, r1)
      else (.ok id, { r1 with id_to_obj := r1.id_to_obj.set raw_id (some obj),
                              name_to_id := (name, id) :: r1.name_to_id })

/-- Registry::insert_object_with_id: grow the array if needed, reject an
occupied slot or duplicate name, advance the counter past id when
id >= next_free_id — with the unchecked u32 addition id + 1, which wraps
modulo 2^32 — then store the object and index its name. -/
def Registry.insert_object_with_id {O : Type} [RegistryObject O] (r : Registry O)
    (id : Nat) (obj : O) : Except RegError Unit × Registry O :=
  let raw_id := id
  if r.id_to_obj.length ≤ raw_id then
    let r1 : Registry O := { r with id_to_obj := listResize r.id_to_obj (raw_id + 32) }
    let name := RegistryObject.registry_name obj
    if containsName r1.name_to_id name then (.error .duplicateName, r1)
    else
      let r2 : Registry O :=
        if r1.next_free_id ≤ id then { r1 with next_free_id := (id + 1) % U32_MOD } else r1
      (.ok (), { r2 with id_to_obj := r2.id_to_obj.set raw_id (some obj),
                         name_to_id := (name, id) :: r2.name_to_id })
  else if (slotGet r raw_id).isSome then
    (.error .duplicateId, r)
  else
    let name := RegistryObject.registry_name obj
    if containsName r.name_to_id name then (.error .duplicateName, r)
    else
      let r2 : Registry O :=
        if r.next_free_id ≤ id then { r with next_free_id := (id + 1) % U32_MOD } else r
      (.ok (), { r2 with id_to_obj := r2.id_to_obj.set raw_id (some obj),
                         name_to_id := (name, id) :: r2.name_to_id })

/-- A registry mutation: one push_object or insert_object_with_id call. -/
inductive RegOp (O : Type) where
  | push (obj : O)
  | insert (id : Nat) (obj : O)

/-- Apply one mutation, keeping the post-state whether it succeeded or
failed (the source methods take &mut self). -/
def RegOp.applyOp {O : Type} [RegistryObject O] (r : Registry O) : RegOp O → Registry O
  | .push obj => (r.push_object obj).2
  | .insert id obj => (r.insert_object_with_id id obj).2

/-- Run a sequence of mutations from a starting state. -/
def runOps {O : Type} [RegistryObject O] (r : Registry O) (ops : List (RegOp O)) :
    Registry O :=
  ops.foldl RegOp.applyOp r

/-- An operation whose explicit id is a representable RegistryId
(NonZeroU32) below u32::MAX; push_object carries no explicit id. -/
def RegOp.validId {O : Type} : RegOp O → Prop
  | .push _ => True
  | .insert id _ => 0 < id ∧ id < U32_MAX

/-- Concrete object type used for witnesses, mirroring the test type of the source,
DummyObject. -/
structure DummyObject where
  name : RegistryName
deriving DecidableEq

instance : RegistryObject DummyObject := ⟨DummyObject.name⟩

/-- The concrete object named gs:a. -/
def objA : DummyObject := ⟨⟨"gs", "a"⟩⟩

/-- The registry obtained by pushing gs:a into the default registry. -/
def regAfterA : Registry DummyObject := ((Registry.init DummyObject).push_object objA).2

/-- The registry slot invariant: every occupied slot index is strictly
below the allocation counter. -/
def RegInv {O : Type} (r : Registry O) : Prop :=
  ∀ i, (slotGet r i).isSome = true → i < r.next_free_id

/-! ## Tiered palette storage (src/lib/gs_schemas/src/chunk.rs)

chunk.rs declares the storage types (PaletteStorage, PaletteData with
variants Singleton / Type16 / Type256 / Type32k) but the sources of the repository contain no get/set implementation for them; the operations below
are modelled from the specification (section 4.4). -/

/-- The three palette sizing tiers of PaletteData: Type16 (palette
capacity 16, u8 indices), Type256 (capacity 256, u8 indices, inline 64),
Type32k (capacity 32768, u16 indices). -/
inductive PaletteTier where
  | t16
  | t256
  | t32k
deriving DecidableEq

/-- Palette capacity of each tier. -/
def PaletteTier.capacity : PaletteTier → Nat
  | .t16 => 16
  | .t256 => 256
  | .t32k => 32768

/-- The next larger tier, none past the largest. -/
def PaletteTier.nextTier : PaletteTier → Option PaletteTier
  | .t16 => some .t256
  | .t256 => some .t32k
  | .t32k => none

/-- Modelled from the spec: PaletteData, the per-chunk tagged union over
a Singleton value and the three palette storage tiers.  A tiered state
holds the deduplicated palette list and one palette index per logical
cell; the CHUNK_DIM^3-element index array is modelled as a function from
cell indices.  The source (chunk.rs) only declares these types; their
contents follow spec section 3 and 4.4. -/
inductive PaletteData (T : Type) where
  | Singleton (value : T)
  | Tiered (tier : PaletteTier) (palette : List T) (data : Fin CHUNK_DIM3Z → Nat)

/-- Modelled from the spec: get(index) — a Singleton represents every
cell; a tiered state looks up the palette index of the cell and resolves it
through the palette (none on a dangling index, which well-formed states
exclude). -/
def PaletteData.get {T : Type} : PaletteData T → Fin CHUNK_DIM3Z → Option T
  | .Singleton v, _ => some v
  | .Tiered _ pal data, i => pal.get? (data i)

/-- Linear search of the palette for a value, as the O(palette size) lookup of the spec. -/
def palIndexOf {T : Type} [DecidableEq T] (v : T) : List T → Option Nat
  | [] => none
  | a :: rest => if a = v then some 0 else (palIndexOf v rest).map (· + 1)

/-- Modelled from the spec: set(index, value).  On a Singleton, setting
the same value is a no-op and a second distinct value materializes a
Type16 tier with palette [old, new].  On a tiered state: if the value is
already in the palette only the cell index is rewritten; if absent and
the palette has spare capacity it is appended; if absent at tier capacity
the storage transitions to the next larger tier (same palette contents,
wider indices) and then inserts; at the largest tier with a full palette
there is no upgrade path and the unrecoverable-capacity failure is
returned as none. -/
def PaletteData.set {T : Type} [DecidableEq T] :
    PaletteData T → Fin CHUNK_DIM3Z → T → Option (PaletteData T)
  | .Singleton old, i, v =>
    if v = old then some (.Singleton old)
    else some (.Tiered .t16 [old, v] (Function.update (fun _ => 0) i 1))
  | .Tiered tier pal data, i, v =>
    match palIndexOf v pal with
    | some k => some (.Tiered tier pal (Function.update data i k))
    | none =>
      if pal.length < tier.capacity then
        some (.Tiered tier (pal ++ [v]) (Function.update data i pal.length))
      else
        match tier.nextTier with
        | some tier2 => some (.Tiered tier2 (pal ++ [v]) (Function.update data i pal.length))
        | none => none

/-- Well-formed palette states: a Singleton always; a tiered state whose
palette fits its tier and whose every cell index points into the
palette. -/
def PaletteData.WF {T : Type} : PaletteData T → Prop
  | .Singleton _ => True
  | .Tiered tier pal data => pal.length ≤ tier.capacity ∧ ∀ i, data i < pal.length

/-- Cell index 0 of a chunk. -/
def cellZero : Fin CHUNK_DIM3Z := ⟨0, by decide⟩

/-- Cell index 1 of a chunk. -/
def cellOne : Fin CHUNK_DIM3Z := ⟨1, by decide⟩

/-- The Type16 state produced by writing value 5 into cell 0 of the
all-zero Singleton. -/
def paletteAfterWrite : PaletteData Nat :=
  PaletteData.Tiered .t16 [0, 5] (Function.update (fun _ => 0) cellZero 1)

/-! ## Theorems -/

/-! ### Theorems about the coordinate algebra -/

/-- C3: for every valid in-chunk position p, try_from_index (as_index p)
recovers exactly p, and as_index p lies in [0, CHUNK_DIM^3). -/
theorem in_chunk_index_roundtrip (p : InChunkPos) (h : p.Valid) :
    InChunkPos.try_from_index p.as_index = .ok p ∧ p.as_index < CHUNK_DIM3Z := by
  obtain ⟨⟨x, y, z⟩⟩ := p
  obtain ⟨hx0, hx1, hy0, hy1, hz0, hz1⟩ := h
  simp only [InChunkPos.Valid, CHUNK_DIM] at hx0 hx1 hy0 hy1 hz0 hz1
  simp only [InChunkPos.as_index, InChunkPos.try_from_index, CHUNK_DIM, CHUNK_DIM2,
    CHUNK_DIM3Z]
  have hidx : ((x + 32 * z + 32 * 32 * y) % (2 ^ 64 : Int)).toNat
      = (x + 32 * z + 32 * 32 * y).toNat := by omega
  rw [hidx]
  constructor
  · rw [if_neg (by omega)]
    simp only [Except.ok.injEq, InChunkPos.mk.injEq, IVec3.mk.injEq]
    refine ⟨?_, ?_, ?_⟩ <;> omega
  · omega

/-- C3 witness: the round-trip at the concrete position (1, 2, 3). -/
theorem in_chunk_index_roundtrip_witness :
    InChunkPos.try_from_index (InChunkPos.as_index ⟨⟨1, 2, 3⟩⟩) = .ok ⟨⟨1, 2, 3⟩⟩ ∧
      InChunkPos.as_index ⟨⟨1, 2, 3⟩⟩ < CHUNK_DIM3Z :=
  in_chunk_index_roundtrip ⟨⟨1, 2, 3⟩⟩ (by decide)

/-- C7: InChunkPos::try_from fails exactly on vectors with a component
outside [0, CHUNK_DIM), and otherwise returns the wrapped vector
unchanged. -/
theorem in_chunk_try_from_spec (v : IVec3) :
    (isOkB (InChunkPos.try_from v) = false ↔
      (v.x < 0 ∨ v.y < 0 ∨ v.z < 0 ∨
        CHUNK_DIM ≤ v.x ∨ CHUNK_DIM ≤ v.y ∨ CHUNK_DIM ≤ v.z)) ∧
    (¬(v.x < 0 ∨ v.y < 0 ∨ v.z < 0 ∨
        CHUNK_DIM ≤ v.x ∨ CHUNK_DIM ≤ v.y ∨ CHUNK_DIM ≤ v.z) →
      InChunkPos.try_from v = .ok ⟨v⟩) := by
  unfold InChunkPos.try_from
  by_cases h : v.x < 0 ∨ v.y < 0 ∨ v.z < 0 ∨
      CHUNK_DIM ≤ v.x ∨ CHUNK_DIM ≤ v.y ∨ CHUNK_DIM ≤ v.z
  · rw [if_pos h]
    exact ⟨by simpa [isOkB] using h, fun hc => absurd h hc⟩
  · rw [if_neg h]
    exact ⟨by simpa [isOkB] using h, fun _ => rfl⟩

/-- C7 witness: the concrete vectors (33, 0, 0) (rejected) and (31, 0, 5)
(accepted unchanged). -/
theorem in_chunk_try_from_witness :
    isOkB (InChunkPos.try_from ⟨33, 0, 0⟩) = false ∧
      InChunkPos.try_from ⟨31, 0, 5⟩ = .ok ⟨⟨31, 0, 5⟩⟩ :=
  ⟨(in_chunk_try_from_spec ⟨33, 0, 0⟩).1.mpr (by decide),
   (in_chunk_try_from_spec ⟨31, 0, 5⟩).2 (by decide)⟩

/-- C8: is_empty returns true iff min and max agree on at least one
axis. -/
theorem in_chunk_range_is_empty_spec (r : InChunkRange) :
    r.is_empty = true ↔
      (r.min.v.x = r.max.v.x ∨ r.min.v.y = r.max.v.y ∨ r.min.v.z = r.max.v.z) := by
  simp [InChunkRange.is_empty, Bool.or_eq_true, beq_iff_eq, or_assoc]

/-- C8 witness: the one-voxel-thick slab with corners (0,0,0), (5,0,7) is
reported empty. -/
theorem in_chunk_range_is_empty_witness :
    (InChunkRange.from_corners ⟨⟨0, 0, 0⟩⟩ ⟨⟨5, 0, 7⟩⟩).is_empty = true :=
  (in_chunk_range_is_empty_spec (InChunkRange.from_corners ⟨⟨0, 0, 0⟩⟩ ⟨⟨5, 0, 7⟩⟩)).mpr
    (by decide)

/-- C4 (bug evaluation): on the range with corners (0,0,0) and (1,0,0),
iter_xzy yields [(0,0,0), (0,0,1)] — the closure hands its (y, z, x) loop
variables positionally to IVec3::new(x, y, z), permuting coordinates — and
not the box contents [(0,0,0), (1,0,0)] required by the claim. -/
theorem iter_xzy_permutes_coordinates :
    (InChunkRange.from_corners ⟨⟨0, 0, 0⟩⟩ ⟨⟨1, 0, 0⟩⟩).iter_xzy
        = [⟨⟨0, 0, 0⟩⟩, ⟨⟨0, 0, 1⟩⟩] ∧
      (InChunkRange.from_corners ⟨⟨0, 0, 0⟩⟩ ⟨⟨1, 0, 0⟩⟩).iter_xzy
        ≠ [⟨⟨0, 0, 0⟩⟩, ⟨⟨1, 0, 0⟩⟩] := by
  constructor <;> decide

/-- C1 (bug evaluation): from_bits shifts the registry id left by only 3
bits while registry_id_bits reads bits 32..63 (the layout given by the doc comment of the struct itself), so already at registry_id = 1, shape = sides = mode = 0
the accessors return registry 0 and shape 8 instead of the field values 1
and 0 that the claim requires. -/
theorem block_id_from_bits_not_roundtrip :
    (BlockId.from_bits 1 0 0 0).registry_id_bits = 0 ∧
      (BlockId.from_bits 1 0 0 0).shape_id_bits = 8 ∧
      (BlockId.from_bits 1 0 0 0).registry_id_bits ≠ 1 := by
  refine ⟨by decide, by decide, by decide⟩

/-! ### Helper lemmas about slot arrays -/

/-- Growing the object array with empty slots changes no slot read. -/
theorem getD_replicate_none {O : Type} (n i : Nat) :
    (List.replicate n (none : Option O)).getD i none = none := by
  induction n generalizing i with
  | zero => simp
  | succ m ih =>
    cases i with
    | zero => simp [List.replicate]
    | succ j => simp [List.replicate, ih j]

/-- Vec::resize_with growth is invisible to slot reads. -/
theorem getD_listResize {O : Type} (l : List (Option O)) (n i : Nat) :
    (listResize l n).getD i none = l.getD i none := by
  unfold listResize
  rcases Nat.lt_or_ge i l.length with h | h
  · rw [List.getD_append _ _ _ _ h]
  · rw [List.getD_eq_default _ _ h, List.getD_append_right _ _ _ _ h, getD_replicate_none]

/-- Writing one slot leaves every other slot unchanged. -/
theorem getD_set_ne {O : Type} (l : List (Option O)) (i j : Nat) (a : Option O)
    (h : i ≠ j) : (l.set j a).getD i none = l.getD i none := by
  induction l generalizing i j with
  | nil => simp
  | cons b t ih =>
    cases j with
    | zero =>
      cases i with
      | zero => omega
      | succ i2 => simp [List.set]
    | succ j2 =>
      cases i with
      | zero => simp [List.set]
      | succ i2 => simpa [List.set] using ih i2 j2 (by omega)

/-- Writing an in-range slot stores the value. -/
theorem getD_set_self {O : Type} (l : List (Option O)) (j : Nat) (a : Option O)
    (h : j < l.length) : (l.set j a).getD j none = a := by
  induction l generalizing j with
  | nil => simp at h
  | cons b t ih =>
    cases j with
    | zero => simp [List.set]
    | succ j2 => simpa [List.set] using ih j2 (by simpa using h)

/-- An occupied slot read implies the index is in range. -/
theorem lt_length_of_getD_some {O : Type} {l : List (Option O)} {i : Nat} {o : O}
    (h : l.getD i none = some o) : i < l.length := by
  by_contra hc
  rw [List.getD_eq_default _ _ (by omega)] at h
  exact Option.noConfusion h

/-- resize_with sets the length to the requested size when growing. -/
theorem listResize_length {O : Type} (l : List (Option O)) (n : Nat) (h : l.length ≤ n) :
    (listResize l n).length = n := by
  unfold listResize
  simp only [List.length_append, List.length_replicate]
  omega

/-- getD_listResize in the getElem? normal form produced by simp. -/
theorem getElem_listResize {O : Type} (l : List (Option O)) (n i : Nat) :
    (listResize l n)[i]?.getD none = l[i]?.getD none := by
  simpa only [List.getD_eq_getElem?_getD] using getD_listResize l n i

/-! ### Theorems about the registry -/

/-- C9: allocate_id hands out the current counter value as a positive id
and advances the counter by one; the allocation-exhausted error occurs
exactly when the u32 increment would overflow (counter at u32::MAX); an
ok result is never 0. -/
theorem allocate_id_spec {O : Type} (r : Registry O) :
    ((r.allocate_id.1 = .error .allocExhausted) ↔ r.next_free_id = U32_MAX) ∧
    (∀ id, r.allocate_id.1 = .ok id →
      id = r.next_free_id ∧ 0 < id ∧
        r.allocate_id.2.next_free_id = r.next_free_id + 1) ∧
    (r.next_free_id ≠ U32_MAX → r.next_free_id ≠ 0 →
      r.allocate_id.1 = .ok r.next_free_id) := by
  unfold Registry.allocate_id
  by_cases hM : r.next_free_id = U32_MAX
  · simp [hM]
  · by_cases h0 : r.next_free_id = 0
    · simp [hM, h0, U32_MAX]
    · simp [hM, h0]
      omega

/-- C9 witness: on the default registry, allocate_id returns id 1 and
advances the counter to 2. -/
theorem allocate_id_spec_witness :
    (Registry.init DummyObject).allocate_id.1 = .ok 1 ∧
      (Registry.init DummyObject).allocate_id.2.next_free_id = 2 := by
  have h := (allocate_id_spec (Registry.init DummyObject)).2.2 (by decide) (by decide)
  have h2 := (allocate_id_spec (Registry.init DummyObject)).2.1 1 h
  exact ⟨h, h2.2.2⟩

/-- C2 (amended): push_object on a registry already containing the
name of the object returns an error and leaves name_to_id and every object
slot unchanged, but the freshly allocated id is leaked: next_free_id is
advanced by one (except when it sits at u32::MAX, where allocation itself
fails and nothing changes), and the object array may have been padded
with empty slots. -/
theorem push_object_duplicate_name {O : Type} [RegistryObject O] (r : Registry O)
    (obj : O)
    (hdup : containsName r.name_to_id (RegistryObject.registry_name obj) = true) :
    isOkB (r.push_object obj).1 = false ∧
    (r.push_object obj).2.name_to_id = r.name_to_id ∧
    (∀ i, slotGet (r.push_object obj).2 i = slotGet r i) ∧
    (r.push_object obj).2.next_free_id =
      (if r.next_free_id = U32_MAX then r.next_free_id else r.next_free_id + 1) := by
  by_cases hM : r.next_free_id = U32_MAX
  · simp [Registry.push_object, Registry.allocate_id, hM, isOkB]
  · by_cases h0 : r.next_free_id = 0
    · simp [Registry.push_object, Registry.allocate_id, hM, h0, isOkB, U32_MAX, slotGet]
    · by_cases hlen : r.id_to_obj.length ≤ r.next_free_id
      · simp [Registry.push_object, Registry.allocate_id, hM, h0, hlen, hdup, isOkB,
          slotGet, getElem_listResize]
      · by_cases hocc : (r.id_to_obj[r.next_free_id]?.getD none).isSome = true
        · simp [Registry.push_object, Registry.allocate_id, hM, h0, hlen, hocc, isOkB,
            slotGet]
        · simp [Registry.push_object, Registry.allocate_id, hM, h0, hlen, hocc, hdup,
            isOkB, slotGet]

/-- C2 counterexample: pushing gs:a a second time fails, but the registry
is not left exactly as before the call — the allocation counter has moved
from 2 to 3. -/
theorem push_object_duplicate_name_cx :
    isOkB ((regAfterA.push_object objA).1) = false ∧
      regAfterA.next_free_id = 2 ∧
      (regAfterA.push_object objA).2.next_free_id = 3 := by
  refine ⟨by decide, by decide, by decide⟩

/-- C2 witness: the amended statement at the concrete registry holding
gs:a and a second push of gs:a. -/
theorem push_object_duplicate_name_witness :
    isOkB ((regAfterA.push_object objA).1) = false ∧
    (regAfterA.push_object objA).2.name_to_id = regAfterA.name_to_id ∧
    (∀ i, slotGet (regAfterA.push_object objA).2 i = slotGet regAfterA i) ∧
    (regAfterA.push_object objA).2.next_free_id =
      (if regAfterA.next_free_id = U32_MAX then regAfterA.next_free_id
        else regAfterA.next_free_id + 1) :=
  push_object_duplicate_name regAfterA objA (by decide)

/-- getD_set_ne in the getElem? normal form produced by simp. -/
theorem getElem_set_ne {O : Type} (l : List (Option O)) (i j : Nat) (a : Option O)
    (h : i ≠ j) : (l.set j a)[i]?.getD none = l[i]?.getD none := by
  simpa only [List.getD_eq_getElem?_getD] using getD_set_ne l i j a h

/-- getD_set_self in the getElem? normal form produced by simp. -/
theorem getElem_set_self {O : Type} (l : List (Option O)) (j : Nat) (a : Option O)
    (h : j < l.length) : (l.set j a)[j]?.getD none = a := by
  simpa only [List.getD_eq_getElem?_getD] using getD_set_self l j a h

/-- An occupied slot stays occupied by the same object across any
push_object call, successful or not: push only ever writes a freshly
grown or checked-empty slot. -/
theorem push_preserves_occupied {O : Type} [RegistryObject O] (r : Registry O)
    (obj : O) (i : Nat) (o : O) (h : slotGet r i = some o) :
    slotGet (r.push_object obj).2 i = some o := by
  have hlt : i < r.id_to_obj.length :=
    lt_length_of_getD_some (l := r.id_to_obj) (by simpa [slotGet] using h)
  by_cases hM : r.next_free_id = U32_MAX
  · simpa [Registry.push_object, Registry.allocate_id, hM, slotGet] using h
  · by_cases h0 : r.next_free_id = 0
    · simpa [Registry.push_object, Registry.allocate_id, hM, h0, slotGet, U32_MAX] using h
    · by_cases hlen : r.id_to_obj.length ≤ r.next_free_id
      · have hne : i ≠ r.next_free_id := by omega
        by_cases hdup : containsName r.name_to_id (RegistryObject.registry_name obj) = true
        · simpa [Registry.push_object, Registry.allocate_id, hM, h0, hlen, hdup, slotGet,
            getElem_listResize] using h
        · simpa [Registry.push_object, Registry.allocate_id, hM, h0, hlen, hdup, slotGet,
            getElem_set_ne _ _ _ _ hne, getElem_listResize] using h
      · by_cases hocc : (r.id_to_obj[r.next_free_id]?.getD none).isSome = true
        · simpa [Registry.push_object, Registry.allocate_id, hM, h0, hlen, hocc,
            slotGet] using h
        · have hne : i ≠ r.next_free_id := by
            intro he
            rw [he] at h
            simp [slotGet] at h
            simp [h] at hocc
          by_cases hdup : containsName r.name_to_id (RegistryObject.registry_name obj) = true
          · simpa [Registry.push_object, Registry.allocate_id, hM, h0, hlen, hocc, hdup,
              slotGet] using h
          · simpa [Registry.push_object, Registry.allocate_id, hM, h0, hlen, hocc, hdup,
              slotGet, getElem_set_ne _ _ _ _ hne] using h

/-- An occupied slot stays occupied by the same object across any
insert_object_with_id call, successful or not: inserting at an occupied
slot fails without mutation, and inserting elsewhere writes a different
slot. -/
theorem insert_preserves_occupied {O : Type} [RegistryObject O] (r : Registry O)
    (id : Nat) (obj : O) (i : Nat) (o : O) (h : slotGet r i = some o) :
    slotGet (r.insert_object_with_id id obj).2 i = some o := by
  have hlt : i < r.id_to_obj.length :=
    lt_length_of_getD_some (l := r.id_to_obj) (by simpa [slotGet] using h)
  by_cases hlen : r.id_to_obj.length ≤ id
  · have hne : i ≠ id := by omega
    by_cases hdup : containsName r.name_to_id (RegistryObject.registry_name obj) = true
    · simpa [Registry.insert_object_with_id, hlen, hdup, slotGet,
        getElem_listResize] using h
    · by_cases hcnt : r.next_free_id ≤ id
      · simpa [Registry.insert_object_with_id, hlen, hdup, hcnt, slotGet,
          getElem_set_ne _ _ _ _ hne, getElem_listResize] using h
      · simpa [Registry.insert_object_with_id, hlen, hdup, hcnt, slotGet,
          getElem_set_ne _ _ _ _ hne, getElem_listResize] using h
  · by_cases hocc : (r.id_to_obj[id]?.getD none).isSome = true
    · simpa [Registry.insert_object_with_id, hlen, hocc, slotGet] using h
    · have hne : i ≠ id := by
        intro he
        rw [he] at h
        simp [slotGet] at h
        simp [h] at hocc
      by_cases hdup : containsName r.name_to_id (RegistryObject.registry_name obj) = true
      · simpa [Registry.insert_object_with_id, hlen, hocc, hdup, slotGet] using h
      · by_cases hcnt : r.next_free_id ≤ id
        · simpa [Registry.insert_object_with_id, hlen, hocc, hdup, hcnt, slotGet,
            getElem_set_ne _ _ _ _ hne] using h
        · simpa [Registry.insert_object_with_id, hlen, hocc, hdup, hcnt, slotGet,
            getElem_set_ne _ _ _ _ hne] using h

/-- An occupied slot stays occupied by the same object across any
sequence of registry mutations. -/
theorem runOps_preserves_occupied {O : Type} [RegistryObject O] (ops : List (RegOp O))
    (r : Registry O) (i : Nat) (o : O) (h : slotGet r i = some o) :
    slotGet (runOps r ops) i = some o := by
  induction ops generalizing r with
  | nil => simpa [runOps] using h
  | cons op rest ih =>
    have hstep : slotGet (RegOp.applyOp r op) i = some o := by
      cases op with
      | push obj => exact push_preserves_occupied r obj i o h
      | insert id obj => exact insert_preserves_occupied r id obj i o h
    simpa [runOps, RegOp.applyOp] using ih (RegOp.applyOp r op) hstep

/-- push_object never returns the id of an occupied slot: returning ok id
requires the slot to have been freshly grown or checked empty. -/
theorem push_not_ok_of_occupied {O : Type} [RegistryObject O] (r : Registry O)
    (obj : O) (i : Nat) (o : O) (h : slotGet r i = some o) :
    (r.push_object obj).1 ≠ .ok i := by
  have hlt : i < r.id_to_obj.length :=
    lt_length_of_getD_some (l := r.id_to_obj) (by simpa [slotGet] using h)
  by_cases hM : r.next_free_id = U32_MAX
  · simp [Registry.push_object, Registry.allocate_id, hM]
  · by_cases h0 : r.next_free_id = 0
    · simp [Registry.push_object, Registry.allocate_id, hM, h0, U32_MAX]
    · by_cases hlen : r.id_to_obj.length ≤ r.next_free_id
      · have hne : r.next_free_id ≠ i := by omega
        by_cases hdup : containsName r.name_to_id (RegistryObject.registry_name obj) = true
        · simp [Registry.push_object, Registry.allocate_id, hM, h0, hlen, hdup]
        · simp [Registry.push_object, Registry.allocate_id, hM, h0, hlen, hdup, hne]
      · by_cases hocc : (r.id_to_obj[r.next_free_id]?.getD none).isSome = true
        · simp [Registry.push_object, Registry.allocate_id, hM, h0, hlen, hocc, slotGet]
        · have hne : r.next_free_id ≠ i := by
            intro he
            rw [← he] at h
            simp [slotGet] at h
            simp [h] at hocc
          by_cases hdup : containsName r.name_to_id (RegistryObject.registry_name obj) = true
          · simp [Registry.push_object, Registry.allocate_id, hM, h0, hlen, hocc, hdup,
              slotGet]
          · simp [Registry.push_object, Registry.allocate_id, hM, h0, hlen, hocc, hdup,
              hne, slotGet]

/-- A successful insert_object_with_id stores the object at the slot and,
when id is below u32::MAX, leaves the allocation counter strictly above
id. -/
theorem insert_ok_facts {O : Type} [RegistryObject O] (r : Registry O) (id : Nat)
    (obj : O) (hok : (r.insert_object_with_id id obj).1 = .ok ()) :
    slotGet (r.insert_object_with_id id obj).2 id = some obj ∧
      (id < U32_MAX → id < (r.insert_object_with_id id obj).2.next_free_id) := by
  by_cases hlen : r.id_to_obj.length ≤ id
  · by_cases hdup : containsName r.name_to_id (RegistryObject.registry_name obj) = true
    · simp [Registry.insert_object_with_id, hlen, hdup] at hok
    · have hlen2 : id < (listResize r.id_to_obj (id + 32)).length := by
        rw [listResize_length _ _ (by omega)]; omega
      by_cases hcnt : r.next_free_id ≤ id
      · refine ⟨?_, fun hid => ?_⟩
        · simp [Registry.insert_object_with_id, hlen, hdup, hcnt, slotGet,
            getElem_set_self _ _ _ hlen2]
        · simp only [U32_MAX] at hid
          simp [Registry.insert_object_with_id, hlen, hdup, hcnt, U32_MOD]
          omega
      · refine ⟨?_, fun hid => ?_⟩
        · simp [Registry.insert_object_with_id, hlen, hdup, hcnt, slotGet,
            getElem_set_self _ _ _ hlen2]
        · simp [Registry.insert_object_with_id, hlen, hdup, hcnt]
          omega
  · by_cases hocc : (r.id_to_obj[id]?.getD none).isSome = true
    · simp [Registry.insert_object_with_id, hlen, hocc, slotGet] at hok
    · by_cases hdup : containsName r.name_to_id (RegistryObject.registry_name obj) = true
      · simp [Registry.insert_object_with_id, hlen, hocc, hdup, slotGet] at hok
      · have hlen2 : id < r.id_to_obj.length := by omega
        by_cases hcnt : r.next_free_id ≤ id
        · refine ⟨?_, fun hid => ?_⟩
          · simp [Registry.insert_object_with_id, hlen, hocc, hdup, hcnt, slotGet,
              getElem_set_self _ _ _ hlen2]
          · simp only [U32_MAX] at hid
            simp [Registry.insert_object_with_id, hlen, hocc, hdup, hcnt, slotGet,
              U32_MOD]
            omega
        · refine ⟨?_, fun hid => ?_⟩
          · simp [Registry.insert_object_with_id, hlen, hocc, hdup, hcnt, slotGet,
              getElem_set_self _ _ _ hlen2]
          · simp [Registry.insert_object_with_id, hlen, hocc, hdup, hcnt, slotGet]
            omega

/-- C6 (amended): after a successful insert_object_with_id(id, object),
when id is a RegistryId below u32::MAX the allocation counter is strictly
greater than id; and for every id, after a successful insert no later
sequence of registry mutations can dislodge the object from slot id, and
no push_object call on any such later state ever returns that id. -/
theorem insert_then_push_never_collides {O : Type} [RegistryObject O] (r : Registry O)
    (id : Nat) (obj : O)
    (hok : (r.insert_object_with_id id obj).1 = .ok ()) :
    (id < U32_MAX → id < (r.insert_object_with_id id obj).2.next_free_id) ∧
    ∀ ops : List (RegOp O),
      slotGet (runOps (r.insert_object_with_id id obj).2 ops) id = some obj ∧
      ∀ obj2 : O,
        ((runOps (r.insert_object_with_id id obj).2 ops).push_object obj2).1 ≠ .ok id := by
  obtain ⟨hslot, hcnt⟩ := insert_ok_facts r id obj hok
  refine ⟨hcnt, fun ops => ?_⟩
  have hkeep := runOps_preserves_occupied ops _ id obj hslot
  exact ⟨hkeep, fun obj2 => push_not_ok_of_occupied _ obj2 id obj hkeep⟩

/-- C6 counterexample: inserting at id = u32::MAX succeeds from the
default registry, but the unchecked u32 increment wraps the allocation
counter to 0, which is not strictly greater than the inserted id. -/
theorem insert_at_u32_max_wraps_counter :
    ((Registry.init DummyObject).insert_object_with_id U32_MAX objA).1 = .ok () ∧
    ((Registry.init DummyObject).insert_object_with_id U32_MAX objA).2.next_free_id = 0 ∧
    ¬ U32_MAX <
        ((Registry.init DummyObject).insert_object_with_id U32_MAX objA).2.next_free_id := by
  have h1 : (Registry.init DummyObject).id_to_obj.length ≤ U32_MAX := by
    simp [Registry.init, U32_MAX]
  have h2 : containsName (Registry.init DummyObject).name_to_id
      (RegistryObject.registry_name objA) = false := by rfl
  have h3 : (Registry.init DummyObject).next_free_id ≤ U32_MAX := by
    simp [Registry.init, U32_MAX]
  refine ⟨?_, ?_, ?_⟩ <;>
    simp [Registry.insert_object_with_id, h1, h2, h3, Registry.init, U32_MAX, U32_MOD,
      containsName]

/-- C6 witness: inserting gs:a at the concrete id 5 into the default
registry leaves the counter at 6 > 5, and after no further operations
slot 5 still holds the object. -/
theorem insert_then_push_never_collides_witness :
    5 < ((Registry.init DummyObject).insert_object_with_id 5 objA).2.next_free_id ∧
      slotGet (runOps ((Registry.init DummyObject).insert_object_with_id 5 objA).2 []) 5
        = some objA :=
  ⟨(insert_then_push_never_collides (Registry.init DummyObject) 5 objA
      rfl).1 (by decide),
   ((insert_then_push_never_collides (Registry.init DummyObject) 5 objA
      rfl).2 []).1⟩

/-- The default registry satisfies the slot invariant. -/
theorem regInv_init (O : Type) : RegInv (Registry.init O) := by
  intro i hi
  rcases i with _ | j <;> simp [Registry.init, slotGet] at hi

/-- The slot invariant for a literal registry state, phrased on the raw
slot array. -/
theorem regInv_of {O : Type} (n : Nat) (l : List (Option O))
    (m : List (RegistryName × Nat)) (h : ∀ i, (l[i]?.getD none).isSome = true → i < n) :
    RegInv ⟨n, l, m⟩ := by
  intro i hi
  exact h i (by simpa [slotGet] using hi)

/-- The slot-array reading of the invariant, for use on hypotheses. -/
theorem regInv_elim {O : Type} (r : Registry O) (hI : RegInv r) (i : Nat)
    (h : (r.id_to_obj[i]?.getD none).isSome = true) : i < r.next_free_id :=
  hI i (by simpa [slotGet] using h)

/-- push_object preserves the slot invariant in all outcomes. -/
theorem push_preserves_inv {O : Type} [RegistryObject O] (r : Registry O) (obj : O)
    (hI : RegInv r) : RegInv (r.push_object obj).2 := by
  by_cases hM : r.next_free_id = U32_MAX
  · have h2 : (r.push_object obj).2 = r := by
      simp [Registry.push_object, Registry.allocate_id, hM]
    rw [h2]; exact hI
  · by_cases h0 : r.next_free_id = 0
    · have h2 : (r.push_object obj).2 =
          ⟨1, r.id_to_obj, r.name_to_id⟩ := by
        simp [Registry.push_object, Registry.allocate_id, hM, h0, U32_MAX]
      rw [h2]
      refine regInv_of _ _ _ fun i hi => ?_
      have := regInv_elim r hI i hi
      omega
    · by_cases hlen : r.id_to_obj.length ≤ r.next_free_id
      · by_cases hdup : containsName r.name_to_id (RegistryObject.registry_name obj) = true
        · have h2 : (r.push_object obj).2 =
              ⟨r.next_free_id + 1, listResize r.id_to_obj (r.next_free_id + 32),
                r.name_to_id⟩ := by
            simp [Registry.push_object, Registry.allocate_id, hM, h0, hlen, hdup]
          rw [h2]
          refine regInv_of _ _ _ fun i hi => ?_
          rw [getElem_listResize] at hi
          have := regInv_elim r hI i hi
          omega
        · have h2 : (r.push_object obj).2 =
              ⟨r.next_free_id + 1,
                (listResize r.id_to_obj (r.next_free_id + 32)).set r.next_free_id (some obj),
                (RegistryObject.registry_name obj, r.next_free_id) :: r.name_to_id⟩ := by
            simp [Registry.push_object, Registry.allocate_id, hM, h0, hlen, hdup]
          rw [h2]
          refine regInv_of _ _ _ fun i hi => ?_
          by_cases hin : i = r.next_free_id
          · omega
          · rw [getElem_set_ne _ _ _ _ hin, getElem_listResize] at hi
            have := regInv_elim r hI i hi
            omega
      · by_cases hocc : (r.id_to_obj[r.next_free_id]?.getD none).isSome = true
        · have h2 : (r.push_object obj).2 =
              ⟨r.next_free_id + 1, r.id_to_obj, r.name_to_id⟩ := by
            simp [Registry.push_object, Registry.allocate_id, hM, h0, hlen, hocc, slotGet]
          rw [h2]
          refine regInv_of _ _ _ fun i hi => ?_
          have := regInv_elim r hI i hi
          omega
        · by_cases hdup : containsName r.name_to_id (RegistryObject.registry_name obj) = true
          · have h2 : (r.push_object obj).2 =
                ⟨r.next_free_id + 1, r.id_to_obj, r.name_to_id⟩ := by
              simp [Registry.push_object, Registry.allocate_id, hM, h0, hlen, hocc, hdup,
                slotGet]
            rw [h2]
            refine regInv_of _ _ _ fun i hi => ?_
            have := regInv_elim r hI i hi
            omega
          · have h2 : (r.push_object obj).2 =
                ⟨r.next_free_id + 1, r.id_to_obj.set r.next_free_id (some obj),
                  (RegistryObject.registry_name obj, r.next_free_id) :: r.name_to_id⟩ := by
              simp [Registry.push_object, Registry.allocate_id, hM, h0, hlen, hocc, hdup,
                slotGet]
            rw [h2]
            refine regInv_of _ _ _ fun i hi => ?_
            by_cases hin : i = r.next_free_id
            · omega
            · rw [getElem_set_ne _ _ _ _ hin] at hi
              have := regInv_elim r hI i hi
              omega

/-- insert_object_with_id with an id below u32::MAX preserves the slot
invariant in all outcomes. -/
theorem insert_preserves_inv {O : Type} [RegistryObject O] (r : Registry O) (id : Nat)
    (obj : O) (hid : id < U32_MAX) (hI : RegInv r) :
    RegInv (r.insert_object_with_id id obj).2 := by
  have hmod : (id + 1) % U32_MOD = id + 1 := by
    simp only [U32_MAX] at hid
    simp only [U32_MOD]
    omega
  by_cases hlen : r.id_to_obj.length ≤ id
  · by_cases hdup : containsName r.name_to_id (RegistryObject.registry_name obj) = true
    · have h2 : (r.insert_object_with_id id obj).2 =
          ⟨r.next_free_id, listResize r.id_to_obj (id + 32), r.name_to_id⟩ := by
        simp [Registry.insert_object_with_id, hlen, hdup]
      rw [h2]
      refine regInv_of _ _ _ fun i hi => ?_
      rw [getElem_listResize] at hi
      exact regInv_elim r hI i hi
    · by_cases hcnt : r.next_free_id ≤ id
      · have h2 : (r.insert_object_with_id id obj).2 =
            ⟨id + 1, (listResize r.id_to_obj (id + 32)).set id (some obj),
              (RegistryObject.registry_name obj, id) :: r.name_to_id⟩ := by
          simp [Registry.insert_object_with_id, hlen, hdup, hcnt, hmod]
        rw [h2]
        refine regInv_of _ _ _ fun i hi => ?_
        by_cases hin : i = id
        · omega
        · rw [getElem_set_ne _ _ _ _ hin, getElem_listResize] at hi
          have := regInv_elim r hI i hi
          omega
      · have h2 : (r.insert_object_with_id id obj).2 =
            ⟨r.next_free_id, (listResize r.id_to_obj (id + 32)).set id (some obj),
              (RegistryObject.registry_name obj, id) :: r.name_to_id⟩ := by
          simp [Registry.insert_object_with_id, hlen, hdup, hcnt]
        rw [h2]
        refine regInv_of _ _ _ fun i hi => ?_
        by_cases hin : i = id
        · omega
        · rw [getElem_set_ne _ _ _ _ hin, getElem_listResize] at hi
          exact regInv_elim r hI i hi
  · by_cases hocc : (r.id_to_obj[id]?.getD none).isSome = true
    · have h2 : (r.insert_object_with_id id obj).2 = r := by
        simp [Registry.insert_object_with_id, hlen, hocc, slotGet]
      rw [h2]; exact hI
    · by_cases hdup : containsName r.name_to_id (RegistryObject.registry_name obj) = true
      · have h2 : (r.insert_object_with_id id obj).2 = r := by
          simp [Registry.insert_object_with_id, hlen, hocc, hdup, slotGet]
        rw [h2]; exact hI
      · by_cases hcnt : r.next_free_id ≤ id
        · have h2 : (r.insert_object_with_id id obj).2 =
              ⟨id + 1, r.id_to_obj.set id (some obj),
                (RegistryObject.registry_name obj, id) :: r.name_to_id⟩ := by
            simp [Registry.insert_object_with_id, hlen, hocc, hdup, hcnt, hmod, slotGet]
          rw [h2]
          refine regInv_of _ _ _ fun i hi => ?_
          by_cases hin : i = id
          · omega
          · rw [getElem_set_ne _ _ _ _ hin] at hi
            have := regInv_elim r hI i hi
            omega
        · have h2 : (r.insert_object_with_id id obj).2 =
              ⟨r.next_free_id, r.id_to_obj.set id (some obj),
                (RegistryObject.registry_name obj, id) :: r.name_to_id⟩ := by
            simp [Registry.insert_object_with_id, hlen, hocc, hdup, hcnt, slotGet]
          rw [h2]
          refine regInv_of _ _ _ fun i hi => ?_
          by_cases hin : i = id
          · omega
          · rw [getElem_set_ne _ _ _ _ hin] at hi
            exact regInv_elim r hI i hi

/-- Under the slot invariant, push_object never reaches the
freshly-allocated-slot-occupied branch that panics in the source. -/
theorem push_no_abort {O : Type} [RegistryObject O] (r : Registry O) (obj : O)
    (hI : RegInv r) : (r.push_object obj).1 ≠ .error .slotOccupiedAbort := by
  by_cases hM : r.next_free_id = U32_MAX
  · simp [Registry.push_object, Registry.allocate_id, hM]
  · by_cases h0 : r.next_free_id = 0
    · simp [Registry.push_object, Registry.allocate_id, hM, h0, U32_MAX]
    · by_cases hlen : r.id_to_obj.length ≤ r.next_free_id
      · by_cases hdup : containsName r.name_to_id (RegistryObject.registry_name obj) = true
        · simp [Registry.push_object, Registry.allocate_id, hM, h0, hlen, hdup]
        · simp [Registry.push_object, Registry.allocate_id, hM, h0, hlen, hdup]
      · have hocc : ¬ (r.id_to_obj[r.next_free_id]?.getD none).isSome = true := by
          intro hc
          have := hI r.next_free_id (by simpa [slotGet] using hc)
          omega
        by_cases hdup : containsName r.name_to_id (RegistryObject.registry_name obj) = true
        · simp [Registry.push_object, Registry.allocate_id, hM, h0, hlen, hocc, hdup,
            slotGet]
        · simp [Registry.push_object, Registry.allocate_id, hM, h0, hlen, hocc, hdup,
            slotGet]

/-- Running valid operations preserves the slot invariant. -/
theorem runOps_preserves_inv {O : Type} [RegistryObject O] (ops : List (RegOp O))
    (r : Registry O) (hI : RegInv r) (hval : ∀ op ∈ ops, op.validId) :
    RegInv (runOps r ops) := by
  induction ops generalizing r with
  | nil => simpa [runOps] using hI
  | cons op rest ih =>
    have hstep : RegInv (RegOp.applyOp r op) := by
      cases op with
      | push obj => exact push_preserves_inv r obj hI
      | insert id obj =>
        exact insert_preserves_inv r id obj
          (hval (RegOp.insert id obj) (by simp)).2 hI
    have hrest : ∀ op2 ∈ rest, op2.validId := fun op2 hm => hval op2 (by simp [hm])
    simpa [runOps, RegOp.applyOp] using ih (RegOp.applyOp r op) hstep hrest

/-- C10 (amended): starting from the default registry, after any sequence
of push_object and insert_object_with_id calls (each succeeding or
failing) whose explicit ids are representable RegistryIds below u32::MAX,
every occupied slot index is strictly below next_free_id, and the
freshly-allocated-slot-occupied branch of push_object (a panic in the
source) is unreachable. -/
theorem registry_occupied_below_counter {O : Type} [RegistryObject O]
    (ops : List (RegOp O)) (hval : ∀ op ∈ ops, op.validId) :
    RegInv (runOps (Registry.init O) ops) ∧
    ∀ obj : O,
      ((runOps (Registry.init O) ops).push_object obj).1 ≠ .error .slotOccupiedAbort := by
  have hI := runOps_preserves_inv ops (Registry.init O) (regInv_init O) hval
  exact ⟨hI, fun obj => push_no_abort _ obj hI⟩

/-- C10 counterexample: a single insert_object_with_id at id = u32::MAX
succeeds from the default registry, yet afterwards slot u32::MAX is
occupied while the wrapped allocation counter is 0, violating the claimed
invariant. -/
theorem registry_inv_fails_at_u32_max :
    isOkB ((Registry.init DummyObject).insert_object_with_id U32_MAX objA).1 = true ∧
    ¬ RegInv (runOps (Registry.init DummyObject) [RegOp.insert U32_MAX objA]) := by
  have hc1 : (1 : Nat) ≤ U32_MAX := by simp [U32_MAX]
  have hmod : (U32_MAX + 1) % U32_MOD = 0 := by
    simp [U32_MAX, U32_MOD]
  have hlen2 : U32_MAX < (listResize ([none] : List (Option DummyObject))
      (U32_MAX + 32)).length := by
    rw [listResize_length _ _ (by simp [U32_MAX])]
    omega
  have h2 : ((Registry.init DummyObject).insert_object_with_id U32_MAX objA).2 =
      ⟨0, (listResize ([none] : List (Option DummyObject)) (U32_MAX + 32)).set
          U32_MAX (some objA),
        [(RegistryObject.registry_name objA, U32_MAX)]⟩ := by
    simp [Registry.insert_object_with_id, hc1, hmod, containsName, Registry.init]
  constructor
  · simp [Registry.insert_object_with_id, hc1, containsName, Registry.init, isOkB]
  · intro hI
    have hocc : (((Registry.init DummyObject).insert_object_with_id
        U32_MAX objA).2.id_to_obj[U32_MAX]?.getD none).isSome = true := by
      rw [h2]
      simp [getElem_set_self _ _ _ hlen2]
    have hlt := regInv_elim _ (by simpa [runOps, RegOp.applyOp] using hI) U32_MAX hocc
    rw [h2] at hlt
    have hlt2 : U32_MAX < 0 := hlt
    omega

/-- C10 witness: the amended statement at the concrete one-operation
sequence pushing gs:a. -/
theorem registry_occupied_below_counter_witness :
    RegInv (runOps (Registry.init DummyObject) [RegOp.push objA]) ∧
    ∀ obj : DummyObject,
      ((runOps (Registry.init DummyObject) [RegOp.push objA]).push_object obj).1
        ≠ .error .slotOccupiedAbort :=
  registry_occupied_below_counter [RegOp.push objA]
    (by intro op hm; simp at hm; simp [hm, RegOp.validId])

/-- A successful palette search returns an in-range index resolving to
the value. -/
theorem palIndexOf_spec {T : Type} [DecidableEq T] (v : T) (pal : List T) (k : Nat)
    (h : palIndexOf v pal = some k) : k < pal.length ∧ pal[k]? = some v := by
  induction pal generalizing k with
  | nil => simp [palIndexOf] at h
  | cons a rest ih =>
    by_cases ha : a = v
    · simp [palIndexOf, ha] at h
      subst h
      simp [ha]
    · simp only [palIndexOf, if_neg ha] at h
      cases hk : palIndexOf v rest with
      | none => rw [hk] at h; simp at h
      | some k2 =>
        rw [hk] at h
        simp at h
        obtain ⟨h1, h2⟩ := ih k2 hk
        subst h
        refine ⟨Nat.succ_lt_succ h1, ?_⟩
        simpa using h2

/-- Upgrading to the next tier strictly enlarges the capacity by at least
one palette slot. -/
theorem nextTier_capacity (tier tier2 : PaletteTier)
    (h : tier.nextTier = some tier2) :
    tier.capacity + 1 ≤ tier2.capacity := by
  cases tier <;> simp [PaletteTier.nextTier] at h <;> subst h <;>
    simp [PaletteTier.capacity]

/-- C5: on any well-formed palette state (the Singleton states are all
well-formed), a successful set(index, value) yields a well-formed state
on which get(index) returns the value just written and get at every
other index returns exactly what it returned before — including when the
write forced a transition Singleton to Type16, Type16 to Type256, or
Type256 to Type32k. -/
theorem palette_set_get {T : Type} [DecidableEq T] :
    (∀ v : T, (PaletteData.Singleton v).WF) ∧
    (∀ (s : PaletteData T) (i : Fin CHUNK_DIM3Z) (v : T) (s2 : PaletteData T),
      s.WF → s.set i v = some s2 →
      s2.WF ∧ s2.get i = some v ∧ ∀ j, j ≠ i → s2.get j = s.get j) := by
  refine ⟨fun v => trivial, fun s i v s2 hwf hset => ?_⟩
  cases s with
  | Singleton old =>
    by_cases hv : v = old
    · simp only [PaletteData.set, if_pos hv] at hset
      subst hv
      cases hset
      exact ⟨trivial, rfl, fun j hj => rfl⟩
    · simp only [PaletteData.set, if_neg hv] at hset
      cases hset
      refine ⟨⟨by simp [PaletteTier.capacity], fun j => ?_⟩, ?_, fun j hj => ?_⟩
      · by_cases hji : j = i
        · subst hji; simp [Function.update_same]
        · simp [Function.update_noteq hji]
      · simp [PaletteData.get, Function.update_same]
      · simp [PaletteData.get, Function.update_noteq hj]
  | Tiered tier pal data =>
    obtain ⟨hcap, hidx⟩ := hwf
    cases hk : palIndexOf v pal with
    | some k =>
      obtain ⟨hklt, hkget⟩ := palIndexOf_spec v pal k hk
      simp only [PaletteData.set, hk] at hset
      cases hset
      refine ⟨⟨hcap, fun j => ?_⟩, ?_, fun j hj => ?_⟩
      · by_cases hji : j = i
        · subst hji; simpa [Function.update_same] using hklt
        · simpa [Function.update_noteq hji] using hidx j
      · simp [PaletteData.get, Function.update_same, hkget]
      · simp [PaletteData.get, Function.update_noteq hj]
    | none =>
      by_cases hroom : pal.length < tier.capacity
      · simp only [PaletteData.set, hk, if_pos hroom] at hset
        cases hset
        refine ⟨⟨by simp only [List.length_append, List.length_singleton]; omega,
          fun j => ?_⟩, ?_, fun j hj => ?_⟩
        · by_cases hji : j = i
          · subst hji; simp [Function.update_same]
          · simp only [Function.update_noteq hji, List.length_append,
              List.length_singleton]
            have := hidx j
            omega
        · simp [PaletteData.get, Function.update_same, List.getElem?_concat_length]
        · simp only [PaletteData.get, Function.update_noteq hj, List.get?_eq_getElem?]
          exact List.getElem?_append_left (hidx j)
      · cases hnext : tier.nextTier with
        | none =>
          simp [PaletteData.set, hk, if_neg hroom, hnext] at hset
        | some tier2 =>
          have hcap2 := nextTier_capacity tier tier2 hnext
          simp only [PaletteData.set, hk, if_neg hroom, hnext] at hset
          cases hset
          refine ⟨⟨by simp only [List.length_append, List.length_singleton]; omega,
            fun j => ?_⟩, ?_, fun j hj => ?_⟩
          · by_cases hji : j = i
            · subst hji; simp [Function.update_same]
            · simp only [Function.update_noteq hji, List.length_append,
                List.length_singleton]
              have := hidx j
              omega
          · simp [PaletteData.get, Function.update_same, List.getElem?_concat_length]
          · simp only [PaletteData.get, Function.update_noteq hj, List.get?_eq_getElem?]
            exact List.getElem?_append_left (hidx j)

/-- C5 witness: writing 5 into cell 0 of the Singleton-0 chunk upgrades
it to a Type16 tier where cell 0 reads back 5 and cell 1 still reads
0. -/
theorem palette_set_get_witness :
    PaletteData.get paletteAfterWrite cellZero = some 5 ∧
      PaletteData.get paletteAfterWrite cellOne = some 0 := by
  have h := (palette_set_get (T := Nat)).2 (PaletteData.Singleton 0) cellZero 5
    paletteAfterWrite ((palette_set_get (T := Nat)).1 0) rfl
  exact ⟨h.2.1, (h.2.2 cellOne (by decide)).trans rfl⟩
